import Mathlib

/-!
Verification development for the `tunnel` Go package (multi-hop SSH tunnels).

This file gives a shallow embedding, in Lean, of the package's data model and
operations (`ParseHop`/`ParseHops`, the option/`Create` layer from `config.go`,
`ensureChain`, `Dial`/`Listen`/`LocalForward`, `Close`, `pipe`, `keepAlive`,
`authMethods`, `resolveHostKeyCallback`, `defaultKnownHostsPath`), and proves
or refutes the specification's claims about them.

External collaborators (the `golang.org/x/crypto/ssh` library, the OS user and
environment lookups, and the network) are modelled as oracles: records of
functions that decide the outcome of each external call.  Stateful operations
return the new tunnel state together with a trace of externally visible events
(dials, handshakes, session closes, keepalive starts), so that claims about
what was or was not closed can be stated over the trace.
-/

/-- Go `error` values produced by the package.  Wrapping constructors model
`fmt.Errorf("...: %w", inner)`; `ioError` stands for an opaque error coming
from a collaborator (network, ssh library, OS). -/
inductive GoErr where
  | errNoHops
  | errNoAuth
  | errClosed
  | netErrClosed
  | ioError (id : Nat)
  | homeDirError
  | knownhostsNewErr (path : String)
  | missingUser (spec : String)
  | resolveHome
  | noAuthHint (inner : GoErr)
  | hopKnownHosts (i : Nat) (inner : GoErr)
  | dialHop (i : Nat) (hostPort : String) (inner : GoErr)
  | viaHopDialNext (prev : Nat) (hostPort : String) (inner : GoErr)
  | sshHandshakeHop (i : Nat) (hostPort : String) (inner : GoErr)
  | dialRemote (network addr : String) (inner : GoErr)
  | listenRemote (network addr : String) (inner : GoErr)
  | listenLocal (addr : String) (inner : GoErr)
  | closeHop (i : Nat) (inner : GoErr)
deriving DecidableEq, Repr

/-- One step of Go's `errors.Unwrap`: wrapping constructors expose their inner
error, sentinels unwrap to nothing. -/
def GoErr.unwrapOne : GoErr → Option GoErr
  | .noAuthHint e => some e
  | .hopKnownHosts _ e => some e
  | .dialHop _ _ e => some e
  | .viaHopDialNext _ _ e => some e
  | .sshHandshakeHop _ _ e => some e
  | .dialRemote _ _ e => some e
  | .listenRemote _ _ e => some e
  | .listenLocal _ e => some e
  | .closeHop _ e => some e
  | _ => none

/-- Go's `errors.Is`: walk the unwrap chain looking for the target sentinel. -/
def errorIs (e target : GoErr) : Bool :=
  e = target ||
    match e with
    | .noAuthHint i => errorIs i target
    | .hopKnownHosts _ i => errorIs i target
    | .dialHop _ _ i => errorIs i target
    | .viaHopDialNext _ _ i => errorIs i target
    | .sshHandshakeHop _ _ i => errorIs i target
    | .dialRemote _ _ i => errorIs i target
    | .listenRemote _ _ i => errorIs i target
    | .listenLocal _ i => errorIs i target
    | .closeHop _ i => errorIs i target
    | _ => false

/-- An `ssh.HostKeyCallback` value: either a caller-supplied callback or a
verifier built by `knownhosts.New` from a file path. -/
inductive HostKeyCallback where
  | custom (id : Nat)
  | knownhostsFile (path : String)
deriving DecidableEq, Repr

/-- An `ssh.AuthMethod` as assembled by `authMethods`. -/
inductive AuthMethod where
  | publicKeys (signers : List Nat)
  | agentCallback
deriving DecidableEq, Repr

/-- The dynamic type of a `net.Conn` value flowing through the forwarder:
a `*net.TCPConn`, an SSH channel connection returned by `client.Dial`, or the
package's `*trackedConn` wrapper. -/
inductive Conn where
  | tcp (id : Nat)
  | sshChan (id : Nat)
  | tracked (inner : Conn)
deriving DecidableEq, Repr

/-- A `Hop` (tunnel.go): one SSH jump.  Durations are nanoseconds, `0` means
unset, matching Go's zero `time.Duration`. -/
structure Hop where
  user : String
  hostPort : String
  hostKeyCallback : Option HostKeyCallback := none
  knownHostsPath : String := ""
  timeout : Nat := 0
deriving DecidableEq, Repr

/-- The `Config` produced by the option layer (config.go).  The diagnostic
logger is omitted: no claim concerns it. -/
structure Config where
  hops : List Hop := []
  signers : List Nat := []
  useAgent : Bool := false
  knownHostsPath : String := ""
  hostKeyCB : Option HostKeyCallback := none
  perHopTimeout : Nat := 10000000000
  keepAlive : Nat := 30000000000
  trackConns : Bool := true
deriving DecidableEq, Repr

/-- Function `defaultConfig` (config.go): known-hosts path empty, 10s per-hop timeout,
30s keepalive, connection tracking on. -/
def defaultConfig : Config :=
  { knownHostsPath := ""
    perHopTimeout := 10000000000
    keepAlive := 30000000000
    trackConns := true }

/-- The ambient OS environment consulted by the package: `SSH_AUTH_SOCK`,
whether dialing the agent socket succeeds, `user.Current` (`none` models an
error or nil user), `os.UserHomeDir` (`none` models an error), the `HOME`
environment variable, and whether `knownhosts.New` succeeds on a path. -/
structure Env where
  sshAuthSock : String
  agentDialOK : Bool
  currentUser : Option String
  userHomeDir : Option String
  homeEnv : String
  knownHostsOK : String → Bool

/-- The network/ssh oracle: outcome of each external call made by the tunnel.
Session handles are identified by their hop index. -/
structure Net where
  dialDirect : String → Nat → Bool
  dialVia : Nat → String → Bool
  handshake : Nat → String → Bool
  chanDial : String → String → Bool
  listenRemoteOK : String → String → Bool
  listenLocalOK : String → Bool
  closeListenerErr : Nat → Option GoErr
  closeClientErr : Nat → Option GoErr

/-- Externally visible events of a tunnel operation, in order of occurrence. -/
inductive Event where
  | dialUnderlayDirect (i : Nat) (hostPort : String) (timeout : Nat)
  | dialUnderlayVia (prev i : Nat) (hostPort : String)
  | handshakeEv (i : Nat) (hostPort : String) (ccTimeout : Nat)
  | closeUnderlay (i : Nat)
  | closeClient (i : Nat)
  | startKeepAlive (i : Nat)
  | closeListener (id : Nat)
  | closeConn (c : Conn)
deriving DecidableEq, Repr

/-- The `Tunnel` state: configuration, established session handles in hop
order (session id = hop index), the monotonic closed flag, and the tracked
connection and listener sets. -/
structure Tunnel where
  cfg : Config
  clients : List Nat := []
  closed : Bool := false
  connTrack : List Conn := []
  listeners : List Nat := []
deriving DecidableEq, Repr

/-- Characters of a string before the first occurrence of `c`. -/
def takeUntil (c : Char) : List Char → List Char
  | [] => []
  | x :: xs => if x = c then [] else x :: takeUntil c xs

/-- Characters of a string after the first occurrence of `c`. -/
def dropPast (c : Char) : List Char → List Char
  | [] => []
  | x :: xs => if x = c then xs else dropPast c xs

/-- Go `strings.SplitN(s, "@", 2)` as used by `ParseHop`: the part before the
first `@` and everything after it; when no `@` occurs, user part is empty and
the whole string is the host-port part. -/
def splitUserHost (s : String) : String × String :=
  if s.data.contains '@' then
    (⟨takeUntil '@' s.data⟩, ⟨dropPast '@' s.data⟩)
  else ("", s)

/-- Function `ParseHop` (tunnel.go): split on `@`, default the port to `:22` when the
host-port part has no colon, and resolve a missing user via `user.Current`,
failing when that lookup errors or yields an empty username. -/
def ParseHop (env : Env) (s : String) : Except GoErr Hop :=
  let uh := splitUserHost s
  let hostPort := if (uh.2).data.contains ':' then uh.2 else uh.2 ++ ":22"
  if uh.1 = "" then
    match env.currentUser with
    | none => .error (.missingUser s)
    | some u =>
      if u = "" then .error (.missingUser s)
      else .ok { user := u, hostPort := hostPort }
  else .ok { user := uh.1, hostPort := hostPort }

/-- Function `ParseHops` (tunnel.go): parse each spec in order, skipping empty strings,
returning the first parse error. -/
def ParseHops (env : Env) (hops : List String) : Except GoErr (List Hop) :=
  match hops with
  | [] => .ok []
  | s :: rest =>
    if s = "" then ParseHops env rest
    else
      match ParseHop env s with
      | .error e => .error e
      | .ok h =>
        match ParseHops env rest with
        | .error e => .error e
        | .ok hs => .ok (h :: hs)

/-- A configuration `Option` (config.go): a function from config to config
that may fail. -/
def ConfigOption : Type := Config → Except GoErr Config

/-- Option `WithHop` (config.go): parse one hop spec and append it. -/
def WithHop (env : Env) (s : String) : ConfigOption := fun c =>
  match ParseHop env s with
  | .error e => .error e
  | .ok h => .ok { c with hops := c.hops ++ [h] }

/-- Option `WithHops` (config.go): append pre-parsed hops. -/
def WithHops (hops : List Hop) : ConfigOption := fun c =>
  .ok { c with hops := c.hops ++ hops }

/-- Option `WithSigner` (config.go): append one signer. -/
def WithSigner (s : Nat) : ConfigOption := fun c =>
  .ok { c with signers := c.signers ++ [s] }

/-- Option `WithAgent` (config.go): enable agent auth. -/
def WithAgent : ConfigOption := fun c => .ok { c with useAgent := true }

/-- An option that installs a whole configuration; options are arbitrary
caller-supplied functions, so this is a legitimate member of the option
space and lets claims quantify over all configurations. -/
def setConfig (cfg : Config) : ConfigOption := fun _ => .ok cfg

/-- The option-application loop at the top of `Create`. -/
def applyOpts : List ConfigOption → Config → Except GoErr Config
  | [], c => .ok c
  | opt :: rest, c =>
    match opt c with
    | .error e => .error e
    | .ok c => applyOpts rest c

/-- Function `Create` (tunnel.go): apply options to the default config, fail with
`ErrNoHops` when no hops are configured, fail with a wrapped `ErrNoAuth` when
there are no signers and agent auth is not enabled, otherwise return a fresh
tunnel with empty trackers and no sessions.  No network or agent I/O happens
here. -/
def Create (opts : List ConfigOption) : Except GoErr Tunnel :=
  match applyOpts opts defaultConfig with
  | .error e => .error e
  | .ok cfg =>
    if cfg.hops.length = 0 then .error .errNoHops
    else if cfg.signers.length = 0 ∧ cfg.useAgent = false then
      .error (.noAuthHint .errNoAuth)
    else .ok { cfg := cfg }

/-- Collaborator `knownhosts.New`: builds a verifier from a file, failing
when the oracle says the file is unusable. -/
def knownhostsNew (env : Env) (path : String) : Except GoErr HostKeyCallback :=
  if env.knownHostsOK path then .ok (.knownhostsFile path)
  else .error (.knownhostsNewErr path)

/-- Function `defaultKnownHostsPath` (tunnel.go): `os.UserHomeDir()` first; on error,
fall back to the `HOME` environment variable if non-empty; otherwise fail with
a wrapped resolve-home error. -/
def defaultKnownHostsPath (env : Env) : Except GoErr String :=
  match env.userHomeDir with
  | some home => .ok (home ++ "/.ssh/known_hosts")
  | none =>
    if env.homeEnv ≠ "" then .ok (env.homeEnv ++ "/.ssh/known_hosts")
    else .error .resolveHome

/-- Function `resolveHostKeyCallback` (tunnel.go), translated clause by clause: hop
callback, hop known-hosts file, global callback, global known-hosts path or
the default path, the last two fed to `knownhosts.New`. -/
def resolveHostKeyCallback (env : Env) (cfg : Config) (h : Hop) :
    Except GoErr HostKeyCallback :=
  match h.hostKeyCallback with
  | some cb => .ok cb
  | none =>
    if h.knownHostsPath ≠ "" then knownhostsNew env h.knownHostsPath
    else
      match cfg.hostKeyCB with
      | some cb => .ok cb
      | none =>
        match (if cfg.knownHostsPath = "" then defaultKnownHostsPath env
               else .ok cfg.knownHostsPath) with
        | .error e => .error e
        | .ok path => knownhostsNew env path

/-- Function `authMethods` (tunnel.go): signer-backed public keys first, then — when
agent auth is enabled, `SSH_AUTH_SOCK` is non-empty and the agent socket dials
successfully — the agent callback; error when no method resolves.  Note an
unreachable agent is silently skipped, it does not fail this step. -/
def authMethods (env : Env) (t : Tunnel) : Except GoErr (List AuthMethod) :=
  let methods : List AuthMethod :=
    if 0 < t.cfg.signers.length then [.publicKeys t.cfg.signers] else []
  let methods :=
    if t.cfg.useAgent ∧ env.sshAuthSock ≠ "" ∧ env.agentDialOK then
      methods ++ [.agentCallback]
    else methods
  if methods.length = 0 then .error .errNoAuth else .ok methods

/-- The effective handshake timeout for one hop (tunnel.go lines 182-185):
the hop's own timeout, falling back to the global per-hop timeout when the
hop's is zero. -/
def effTimeout (cfg : Config) (hop : Hop) : Nat :=
  if hop.timeout = 0 then cfg.perHopTimeout else hop.timeout

/-- The hop loop of `ensureChain` (tunnel.go lines 181–222).  `i` is the hop
index, `prev` the previous hop's session handle, `clients` the sessions
appended so far (the Go code appends into `t.clients` as it goes).  Faithful
details: the direct dialer for hop 0 was built once with the *global*
`cfg.perHopTimeout`; the per-hop timeout only enters the `ssh.ClientConfig`
used for the handshake; on handshake failure only the raw underlay connection
is closed and the loop returns, keeping `clients` as accumulated. -/
def chainLoop (net : Net) (env : Env) (cfg : Config) :
    List Hop → Nat → Option Nat → List Nat → List Event →
    List Nat × List Event × Option GoErr
  | [], _, _, clients, evs => (clients, evs, none)
  | hop :: rest, i, prev, clients, evs =>
    match resolveHostKeyCallback env cfg hop, prev with
    | .error e, _ => (clients, evs, some (.hopKnownHosts i e))
    | .ok _, none =>
      if net.dialDirect hop.hostPort cfg.perHopTimeout then
        if net.handshake i hop.hostPort then
          chainLoop net env cfg rest (i + 1) (some i) (clients ++ [i])
            (evs ++ [.dialUnderlayDirect i hop.hostPort cfg.perHopTimeout,
              .handshakeEv i hop.hostPort (effTimeout cfg hop)] ++
              (if 0 < cfg.keepAlive then [.startKeepAlive i] else []))
        else
          (clients,
            evs ++ [.dialUnderlayDirect i hop.hostPort cfg.perHopTimeout,
              .handshakeEv i hop.hostPort (effTimeout cfg hop), .closeUnderlay i],
            some (.sshHandshakeHop i hop.hostPort (.ioError 0)))
      else
        (clients, evs ++ [.dialUnderlayDirect i hop.hostPort cfg.perHopTimeout],
          some (.dialHop i hop.hostPort (.ioError 0)))
    | .ok _, some p =>
      if net.dialVia p hop.hostPort then
        if net.handshake i hop.hostPort then
          chainLoop net env cfg rest (i + 1) (some i) (clients ++ [i])
            (evs ++ [.dialUnderlayVia p i hop.hostPort,
              .handshakeEv i hop.hostPort (effTimeout cfg hop)] ++
              (if 0 < cfg.keepAlive then [.startKeepAlive i] else []))
        else
          (clients,
            evs ++ [.dialUnderlayVia p i hop.hostPort,
              .handshakeEv i hop.hostPort (effTimeout cfg hop), .closeUnderlay i],
            some (.sshHandshakeHop i hop.hostPort (.ioError 0)))
      else
        (clients, evs ++ [.dialUnderlayVia p i hop.hostPort],
          some (.viaHopDialNext p hop.hostPort (.ioError 0)))

/-- Function `ensureChain` (tunnel.go): fail fast when closed; no-op when the session
list is non-empty (the code treats *any* non-empty list as a built chain);
otherwise resolve auth methods and run the hop loop, keeping whatever the
loop accumulated in `clients` — also on failure. -/
def ensureChain (net : Net) (env : Env) (t : Tunnel) :
    Tunnel × List Event × Option GoErr :=
  if t.closed then (t, [], some .errClosed)
  else if 0 < t.clients.length then (t, [], none)
  else
    match authMethods env t with
    | .error e => (t, [], some e)
    | .ok _ =>
      let r := chainLoop net env t.cfg t.cfg.hops 0 none [] []
      ({ t with clients := r.1 }, r.2.1, r.2.2)

/-- Function `track` (tunnel.go): when tracking is enabled, register the connection and
return a `*trackedConn` wrapper; otherwise return it unchanged. -/
def track (t : Tunnel) (c : Conn) : Tunnel × Conn :=
  if t.cfg.trackConns then
    ({ t with connTrack := t.connTrack ++ [c] }, .tracked c)
  else (t, c)

/-- Outcome of a public operation: a result, a returned error, or a Go
runtime panic. -/
inductive OpResult (α : Type) where
  | ok (a : α)
  | err (e : GoErr)
  | panicked
deriving DecidableEq, Repr

/-- Function `DialContext` (tunnel.go): ensure the chain, take `t.clients[len-1]`
(a panic when the list is empty), open a channel through it, track and return
the connection. -/
def DialContext (net : Net) (env : Env) (t : Tunnel) (network addr : String) :
    Tunnel × List Event × OpResult Conn :=
  match ensureChain net env t with
  | (t, evs, some e) => (t, evs, .err e)
  | (t, evs, none) =>
    match t.clients.getLast? with
    | none => (t, evs, .panicked)
    | some last =>
      if net.chanDial network addr then
        let tc := track t (.sshChan last)
        (tc.1, evs, .ok tc.2)
      else (t, evs, .err (.dialRemote network addr (.ioError 0)))

/-- Function `Dial` (tunnel.go): delegates to `DialContext` with a background context. -/
def Dial (net : Net) (env : Env) (t : Tunnel) (network addr : String) :
    Tunnel × List Event × OpResult Conn :=
  DialContext net env t network addr

/-- Function `ListenContext` (tunnel.go): ensure the chain, ask the last hop to listen
remotely, register the listener. -/
def ListenContext (net : Net) (env : Env) (t : Tunnel) (network laddr : String) :
    Tunnel × List Event × OpResult Nat :=
  match ensureChain net env t with
  | (t, evs, some e) => (t, evs, .err e)
  | (t, evs, none) =>
    match t.clients.getLast? with
    | none => (t, evs, .panicked)
    | some _ =>
      if net.listenRemoteOK network laddr then
        let lid := t.listeners.length
        ({ t with listeners := t.listeners ++ [lid] }, evs, .ok lid)
      else (t, evs, .err (.listenRemote network laddr (.ioError 0)))

/-- Function `Listen` (tunnel.go): delegates to `ListenContext`. -/
def Listen (net : Net) (env : Env) (t : Tunnel) (network laddr : String) :
    Tunnel × List Event × OpResult Nat :=
  ListenContext net env t network laddr

/-- Function `LocalForward` (tunnel.go): ensure the chain, open a local listener,
register it, and hand it to the background accept loop. -/
def LocalForward (net : Net) (env : Env) (t : Tunnel) (laddr raddr : String) :
    Tunnel × List Event × OpResult Nat :=
  match ensureChain net env t with
  | (t, evs, some e) => (t, evs, .err e)
  | (t, evs, none) =>
    if net.listenLocalOK laddr then
      let lid := t.listeners.length
      ({ t with listeners := t.listeners ++ [lid] }, evs, .ok lid)
    else (t, evs, .err (.listenLocal laddr (.ioError 0)))

/-- Function `Close` (tunnel.go): `closed.Swap(true)` makes every call after the first
return nil immediately.  The first call closes tracked listeners (collecting
errors other than `net.ErrClosed`), closes tracked connections when tracking
is enabled (errors swallowed), closes hop sessions in reverse order
(collecting hop-indexed errors), clears the session list, and returns
`errors.Join` of the collected errors — modelled as the list of collected
errors, `none` when there were none. -/
def Close (net : Net) (t : Tunnel) : Tunnel × List Event × Option (List GoErr) :=
  if t.closed then (t, [], none)
  else
    let t1 : Tunnel := { t with closed := true }
    let lnErrs := t1.listeners.filterMap (fun l =>
      match net.closeListenerErr l with
      | some e => if errorIs e .netErrClosed then none else some e
      | none => none)
    let lnEvs := t1.listeners.map Event.closeListener
    let connEvs := if t1.cfg.trackConns then t1.connTrack.map Event.closeConn else []
    let clientEvs := t1.clients.reverse.map Event.closeClient
    let clientErrs := t1.clients.reverse.filterMap (fun i =>
      (net.closeClientErr i).map (fun e => GoErr.closeHop i e))
    let errs := lnErrs ++ clientErrs
    ({ t1 with
        listeners := []
        connTrack := if t1.cfg.trackConns then [] else t1.connTrack
        clients := [] },
      lnEvs ++ connEvs ++ clientEvs,
      if errs.isEmpty then none else some errs)

/-- Iterated: `n` successive calls of `Close` on the same tunnel (state only). -/
def closeN (net : Net) : Nat → Tunnel → Tunnel
  | 0, t => t
  | n + 1, t => closeN net n (Close net t).1

/-- The type-asserted half-close `c.(*net.TCPConn).CloseWrite()` in `pipe`:
the assertion succeeds only when the connection's dynamic type is
`*net.TCPConn`; on any other type the goroutine panics. -/
def closeWriteTCP (c : Conn) : Option Unit :=
  match c with
  | .tcp _ => some ()
  | _ => none

/-- Completion trace of one `pipe` run: both half-closes happen (one per
copy direction) before the two full closes. -/
structure PipeTrace where
  halfCloseA : Bool
  halfCloseB : Bool
  fullCloseA : Bool
  fullCloseB : Bool
deriving DecidableEq, Repr

/-- Function `pipe` (tunnel.go): two copy goroutines; each, at end-of-stream, runs
`dst.(*net.TCPConn).CloseWrite()`; after both finish, both connections are
fully closed.  When either type assertion fails the goroutine panics and the
bridge never completes. -/
def pipe (a b : Conn) : OpResult PipeTrace :=
  match closeWriteTCP a, closeWriteTCP b with
  | some _, some _ => .ok ⟨true, true, true, true⟩
  | _, _ => .panicked

/-- The per-connection body of `serveForward` (tunnel.go): wrap the accepted
local connection via `track`, dial the remote through the tunnel (closing the
local side and returning on failure), then bridge the two with `pipe`. -/
def serveForwardConn (net : Net) (env : Env) (t : Tunnel) (raddr : String)
    (lc : Conn) : Tunnel × OpResult PipeTrace :=
  let tc := track t lc
  match DialContext net env tc.1 "tcp" raddr with
  | (t, _, .ok remote) => (t, pipe tc.2 remote)
  | (t, _, .err _) => (t, .err (.dialRemote "tcp" raddr (.ioError 0)))
  | (t, _, .panicked) => (t, .panicked)

/-- Result of one `SendRequest("keepalive@openssh.com", true, nil)` call:
the reply flag and whether the send itself returned an error. -/
structure KAResult where
  replyOK : Bool
  sendErr : Bool
deriving DecidableEq, Repr

/-- Actions a keepalive loop could take on its session. -/
inductive KAEvent where
  | sendRequest
  | closeSession
deriving DecidableEq, Repr

/-- Function `keepAlive` (tunnel.go): on each ticker fire send one liveness request;
return (ending the loop) exactly when the send errors.  The reply flag is
discarded by the code (`_, _, err := c.SendRequest(...)`).  The input list is
the sequence of outcomes the session would produce while the loop runs. -/
def keepAlive : List KAResult → List KAEvent
  | [] => []
  | r :: rest => .sendRequest :: (if r.sendErr then [] else keepAlive rest)

/-- The spec's session-list invariant: empty, or exactly one session per
configured hop, in order (session ids are hop indices). -/
def chainInvariant (t : Tunnel) : Prop :=
  t.clients = [] ∨ t.clients = List.range t.cfg.hops.length

instance (t : Tunnel) : Decidable (chainInvariant t) := by
  unfold chainInvariant; infer_instance

/-- Modelled from the spec (§4.2 priority list), for comparison with
`resolveHostKeyCallback`: (1) hop callback, (2) verifier from the hop
known-hosts file, (3) global callback, (4) verifier from the global
known-hosts path, (5) verifier from the default known-hosts path. -/
def specHostKeyPriority (env : Env) (cfg : Config) (h : Hop) :
    Except GoErr HostKeyCallback :=
  if let some cb := h.hostKeyCallback then .ok cb
  else if h.knownHostsPath ≠ "" then knownhostsNew env h.knownHostsPath
  else if let some cb := cfg.hostKeyCB then .ok cb
  else if cfg.knownHostsPath ≠ "" then knownhostsNew env cfg.knownHostsPath
  else
    match defaultKnownHostsPath env with
    | .error e => .error e
    | .ok path => knownhostsNew env path

/-- Parse every spec independently, in order, keeping the first error. -/
def parseEach (env : Env) : List String → Except GoErr (List Hop)
  | [] => .ok []
  | s :: rest =>
    match ParseHop env s, parseEach env rest with
    | .error e, _ => .error e
    | .ok _, .error e => .error e
    | .ok h, .ok hs => .ok (h :: hs)

/-- Modelled from the spec (§4.1), for comparison with `ParseHops`: drop empty
specs, then parse the rest independently in order, stopping at the first
failure. -/
def specParseHops (env : Env) (hops : List String) : Except GoErr (List Hop) :=
  parseEach env (hops.filter (fun s => s ≠ ""))

/-! ## Concrete fixtures used by the evaluation theorems -/

/-- An OS environment with no agent socket, user `alice`, resolvable home. -/
def env0 : Env :=
  { sshAuthSock := ""
    agentDialOK := false
    currentUser := some "alice"
    userHomeDir := some "/home/alice"
    homeEnv := ""
    knownHostsOK := fun _ => false }

/-- A network where every external call succeeds. -/
def netAll : Net :=
  { dialDirect := fun _ _ => true
    dialVia := fun _ _ => true
    handshake := fun _ _ => true
    chanDial := fun _ _ => true
    listenRemoteOK := fun _ _ => true
    listenLocalOK := fun _ => true
    closeListenerErr := fun _ => none
    closeClientErr := fun _ => none }

/-- A network where hop 0's handshake succeeds and every later handshake
fails; every dial succeeds. -/
def netHop1Fails : Net :=
  { netAll with handshake := fun i _ => i == 0 }

/-- First hop of the two-hop fixture. -/
def hopA : Hop := { user := "alice", hostPort := "a:22" }

/-- Second hop of the two-hop fixture. -/
def hopB : Hop := { user := "bob", hostPort := "b:22" }

/-- A two-hop configuration with one signer and a global host-key callback. -/
def cfg2 : Config :=
  { hops := [hopA, hopB], signers := [1], hostKeyCB := some (.custom 0) }

/-- A fresh tunnel over `cfg2`, as `Create` would return it. -/
def t2 : Tunnel := { cfg := cfg2 }

/-- The `cfg2` tunnel with its chain fully built. -/
def t2Built : Tunnel := { cfg := cfg2, clients := [0, 1] }

/-! ## Claims -/

/-- C1: the spec requires that when a chain build fails at hop `i`, every
session established for hops `0..i-1` during that attempt is closed before the
error is returned.  The code does not do this: with hop 1's handshake failing,
`ensureChain` returns an error while the hop-0 session both remains in
`t.clients` and is never closed (no `closeClient 0` event in the trace). -/
theorem ensureChain_retains_partial_chain :
    (ensureChain netHop1Fails env0 t2).2.2 =
      some (.sshHandshakeHop 1 "b:22" (.ioError 0)) ∧
    (ensureChain netHop1Fails env0 t2).1.clients = [0] ∧
    Event.closeClient 0 ∉ (ensureChain netHop1Fails env0 t2).2.1 := by
  decide

/-- C2: the spec's invariant — session list empty or exactly `len(Hops)`
entries — is broken by a failed build: after a `Dial` whose chain build fails
at hop 1 of 2, the session list has exactly one entry. -/
theorem dial_breaks_session_list_invariant :
    (DialContext netHop1Fails env0 t2 "tcp" "svc:1").1.clients = [0] ∧
    t2.cfg.hops.length = 2 ∧
    ¬ chainInvariant (DialContext netHop1Fails env0 t2 "tcp" "svc:1").1 := by
  decide

/-- C3: the forwarding bridge is claimed never to panic for the connections
the forwarder produces.  In the code, each `pipe` direction runs
`dst.(*net.TCPConn).CloseWrite()`, an unchecked type assertion: it panics for
the tracked-connection wrapper (always produced when tracking is on, the
default) and for SSH channel connections (always produced on the remote side),
so the bridge panics for every forwarded connection. -/
theorem pipe_panics_on_forwarded_conns :
    (serveForwardConn netAll env0 t2Built "r:9" (.tcp 7)).2 = .panicked ∧
    pipe (.tracked (.tcp 7)) (.tracked (.sshChan 1)) = .panicked ∧
    pipe (.tcp 7) (.sshChan 1) = .panicked := by
  decide

/-- After any `Close` the closed flag is set. -/
theorem close_sets_closed (net : Net) (t : Tunnel) :
    (Close net t).1.closed = true := by
  unfold Close
  by_cases h : t.closed = true <;> simp [h]

/-- Calling `Close` on an already-closed tunnel is an immediate nil-error no-op. -/
theorem close_on_closed (net : Net) (t : Tunnel) (h : t.closed = true) :
    Close net t = (t, [], none) := by
  unfold Close
  simp [h]

/-- Repeated closes collapse to the first one, state-wise. -/
theorem closeN_eq_first (net : Net) (n : Nat) (hn : 1 ≤ n) (t : Tunnel) :
    closeN net n t = (Close net t).1 := by
  induction n generalizing t with
  | zero => omega
  | succ m ih =>
    show closeN net m (Close net t).1 = (Close net t).1
    rcases Nat.eq_zero_or_pos m with h0 | hm
    · subst h0; rfl
    · rw [ih hm]
      rw [close_on_closed net (Close net t).1 (close_sets_closed net t)]

/-- On a closed tunnel, chain construction fails fast with `ErrClosed`. -/
theorem ensureChain_closed (net : Net) (env : Env) (t : Tunnel)
    (h : t.closed = true) :
    ensureChain net env t = (t, [], some .errClosed) := by
  unfold ensureChain
  simp [h]

/-- C4: closing a tunnel `n ≥ 1` times is equivalent to closing it once —
the state after `n` calls equals the state after the first, every call after
the first returns immediately with no events and a nil error, and any `Dial`,
`Listen`, or `LocalForward` after the closes fails with `ErrClosed`. -/
theorem close_idempotent_and_ops_fail_closed (net : Net) (env : Env)
    (t : Tunnel) (n : Nat) (hn : 1 ≤ n) (network addr laddr raddr : String) :
    closeN net n t = (Close net t).1 ∧
    Close net (closeN net n t) = (closeN net n t, [], none) ∧
    (Dial net env (closeN net n t) network addr).2.2 = .err .errClosed ∧
    (Listen net env (closeN net n t) network laddr).2.2 = .err .errClosed ∧
    (LocalForward net env (closeN net n t) laddr raddr).2.2 = .err .errClosed := by
  have hst := closeN_eq_first net n hn t
  have hcl : (closeN net n t).closed = true := by
    rw [hst]; exact close_sets_closed net t
  have hec := ensureChain_closed net env (closeN net n t) hcl
  refine ⟨hst, close_on_closed net _ hcl, ?_, ?_, ?_⟩
  · unfold Dial DialContext
    rw [hec]
  · unfold Listen ListenContext
    rw [hec]
  · unfold LocalForward
    rw [hec]

/-- Witness for C4 at a concrete input: the two-hop fixture closed three
times behaves exactly like one close, and `Dial` afterwards is `ErrClosed`. -/
theorem close_idempotent_witness :
    closeN netAll 3 t2 = (Close netAll t2).1 ∧
    Close netAll (closeN netAll 3 t2) = (closeN netAll 3 t2, [], none) ∧
    (Dial netAll env0 (closeN netAll 3 t2) "tcp" "svc:1").2.2 = .err .errClosed ∧
    (Listen netAll env0 (closeN netAll 3 t2) "tcp" ":80").2.2 = .err .errClosed ∧
    (LocalForward netAll env0 (closeN netAll 3 t2) ":8080" "svc:1").2.2 =
      .err .errClosed :=
  close_idempotent_and_ops_fail_closed netAll env0 t2 3 (by decide)
    "tcp" "svc:1" ":80" ":8080"

/-- C5: for every configuration with at least one hop, `Create` fails with the
`ErrNoAuth` condition (in the `errors.Is` sense, through the wrapping hint)
iff there are no explicit signers and agent auth is disabled; and with agent
auth enabled `Create` succeeds unconditionally — it consults neither the agent
socket nor the network (its type takes no oracle), any agent failure surfacing
only at chain construction, which with no reachable agent and no signers fails
with `ErrNoAuth` on first use. -/
theorem create_noauth_iff (cfg : Config) (h : cfg.hops ≠ []) :
    ((∃ e, Create [setConfig cfg] = .error e ∧ errorIs e .errNoAuth = true) ↔
      (cfg.signers = [] ∧ cfg.useAgent = false)) ∧
    (cfg.useAgent = true →
      Create [setConfig cfg] = .ok { cfg := cfg } ∧
      ∀ env net, cfg.signers = [] → env.sshAuthSock = "" →
        (ensureChain net env { cfg := cfg }).2.2 = some .errNoAuth) := by
  have hne : ¬ cfg.hops.length = 0 := by
    simpa [List.length_eq_zero] using h
  constructor
  · constructor
    · rintro ⟨e, he, _⟩
      by_cases hs : cfg.signers = [] ∧ cfg.useAgent = false
      · exact hs
      · exfalso
        simp [Create, applyOpts, setConfig, hne, hs] at he
    · rintro ⟨hs, ha⟩
      refine ⟨.noAuthHint .errNoAuth, ?_, by decide⟩
      simp [Create, applyOpts, setConfig, hne, hs, ha]
  · intro ha
    constructor
    · simp [Create, applyOpts, setConfig, hne, ha]
    · intro env net hs hsock
      simp [ensureChain, authMethods, hs, hsock, ha]

/-- Witness for C5 at concrete inputs: a one-hop config with no auth fails
with the `ErrNoAuth` condition, and the same config with agent auth enabled
succeeds at `Create` while failing with `ErrNoAuth` only at first use against
an environment with no agent socket. -/
theorem create_noauth_witness :
    (∃ e, Create [setConfig { hops := [hopA] }] = .error e ∧
       errorIs e .errNoAuth = true) ∧
    Create [setConfig { hops := [hopA], useAgent := true }] =
      .ok { cfg := { hops := [hopA], useAgent := true } } ∧
    (ensureChain netAll env0
        { cfg := { hops := [hopA], useAgent := true } }).2.2 =
      some .errNoAuth := by
  refine ⟨?_, ?_, ?_⟩
  · exact (create_noauth_iff { hops := [hopA] } (by decide)).1.mpr ⟨rfl, rfl⟩
  · exact ((create_noauth_iff { hops := [hopA], useAgent := true }
      (by decide)).2 rfl).1
  · exact ((create_noauth_iff { hops := [hopA], useAgent := true }
      (by decide)).2 rfl).2 env0 netAll rfl rfl

/-- Counterexample to C6 as stated: after an unfavorable reply (reply flag
false, no send error) the keepalive loop keeps going — here it sends a second
request, where the claim says the loop terminates on a hop that fails to
respond favorably (which would leave a single send). -/
theorem keepAlive_continues_after_unfavorable_reply :
    keepAlive [⟨false, false⟩, ⟨true, false⟩] = [.sendRequest, .sendRequest] ∧
    (keepAlive [⟨false, false⟩, ⟨true, false⟩]).length ≠ 1 := by
  decide

/-- C6 (amended): the keepalive loop sends one liveness request per interval
and terminates silently exactly when the send itself errors — the reply flag
is discarded, so an unfavorable reply without a send error does not terminate
the loop — and in no case does the loop close the session. -/
theorem keepAlive_stops_at_first_send_error (rs : List KAResult) :
    (keepAlive rs).length = min (rs.findIdx (fun r => r.sendErr) + 1) rs.length ∧
    keepAlive rs = List.replicate (keepAlive rs).length .sendRequest ∧
    KAEvent.closeSession ∉ keepAlive rs := by
  induction rs with
  | nil => simp [keepAlive]
  | cons r rest ih =>
    rcases ih with ⟨ih1, ih2, ih3⟩
    cases hr : r.sendErr with
    | true =>
      refine ⟨?_, by simp [keepAlive, hr], by simp [keepAlive, hr]⟩
      simp [keepAlive, hr, List.findIdx_cons]
    | false =>
      refine ⟨?_, ?_, ?_⟩
      · simp [keepAlive, hr, List.findIdx_cons, ih1, Nat.succ_min_succ]
      · simp only [keepAlive, hr, if_false, List.length_cons,
          List.replicate_succ]
        exact congrArg (List.cons .sendRequest) ih2
      · simp [keepAlive, hr, ih3]

/-- C7: host-key verification resolves per hop exactly in the spec's priority
order — hop callback, hop known-hosts file, global callback, global
known-hosts path, default known-hosts path — and the default path derivation
fails exactly when the home directory cannot be resolved and the `HOME`
environment fallback is empty. -/
theorem resolveHostKeyCallback_matches_spec_priority (env : Env) (cfg : Config)
    (hp : Hop) :
    resolveHostKeyCallback env cfg hp = specHostKeyPriority env cfg hp ∧
    (∀ e : Env, defaultKnownHostsPath e = .error .resolveHome ↔
      (e.userHomeDir = none ∧ e.homeEnv = "")) := by
  constructor
  · unfold resolveHostKeyCallback specHostKeyPriority
    cases hp.hostKeyCallback <;> cases cfg.hostKeyCB <;>
      by_cases h1 : hp.knownHostsPath = "" <;>
      by_cases h2 : cfg.knownHostsPath = "" <;>
      simp [h1, h2] <;>
      cases defaultKnownHostsPath env <;> simp
  · intro e
    unfold defaultKnownHostsPath
    cases e.userHomeDir with
    | some h => simp
    | none => by_cases hh : e.homeEnv = "" <;> simp [hh]

/-- A one-hop fixture whose hop carries an explicit 5s per-hop timeout while
the global per-hop timeout is the 10s default. -/
def hopT : Hop := { user := "alice", hostPort := "a:22", timeout := 5000000000 }

/-- Configuration around `hopT`. -/
def cfgT : Config :=
  { hops := [hopT], signers := [1], hostKeyCB := some (.custom 0) }

/-- Fresh tunnel over `cfgT`. -/
def tT : Tunnel := { cfg := cfgT }

/-- The timeout carried by the direct hop-0 underlay dial, when it is the
first event of a build trace. -/
def hop0DialTimeout (evs : List Event) : Option Nat :=
  match evs.head? with
  | some (.dialUnderlayDirect 0 _ t) => some t
  | _ => none

/-- Counterexample to C8 as stated: with a hop-specific 5s timeout configured,
the hop-0 underlay dial still uses the global 10s timeout (the `net.Dialer` is
built once from `cfg.PerHopTimeout` before the loop), not the hop's. -/
theorem hop0_dial_uses_global_timeout_cx :
    hopT.timeout = 5000000000 ∧
    cfgT.perHopTimeout = 10000000000 ∧
    hop0DialTimeout (ensureChain netAll env0 tT).2.1 = some 10000000000 ∧
    hop0DialTimeout (ensureChain netAll env0 tT).2.1 ≠ some hopT.timeout := by
  decide

/-- Helper: the hop loop only ever appends to its event accumulator. -/
theorem chainLoop_events_accum (net : Net) (env : Env) (cfg : Config)
    (hops : List Hop) (i : Nat) (prev : Option Nat) (clients : List Nat)
    (evs : List Event) :
    (chainLoop net env cfg hops i prev clients evs).2.1 =
      evs ++ (chainLoop net env cfg hops i prev clients []).2.1 := by
  induction hops generalizing i prev clients evs with
  | nil => simp [chainLoop]
  | cons hop rest ih =>
    rw [chainLoop.eq_def net env cfg (hop :: rest) i prev clients evs,
        chainLoop.eq_def net env cfg (hop :: rest) i prev clients []]
    cases hres : resolveHostKeyCallback env cfg hop with
    | error e => simp [hres]
    | ok cb =>
      cases prev with
      | none =>
        by_cases hd : net.dialDirect hop.hostPort cfg.perHopTimeout
        · by_cases hh : net.handshake i hop.hostPort
          · simp only [hres, hd, hh, if_true]
            rw [ih, ih]
            simp
            conv_rhs => rw [ih]
            simp
          · simp [hres, hd, hh]
        · simp [hres, hd]
      | some p =>
        by_cases hd : net.dialVia p hop.hostPort
        · by_cases hh : net.handshake i hop.hostPort
          · simp only [hres, hd, hh, if_true]
            rw [ih, ih]
            simp
            conv_rhs => rw [ih]
            simp
          · simp [hres, hd, hh]
        · simp [hres, hd]

/-- C8 (amended): during chain construction on a fresh tunnel, hop 0's
underlay connection is dialed directly with the *global* per-hop timeout
(the dialer is built once from `cfg.PerHopTimeout`); the hop-specific timeout,
falling back to the global one when unset, is applied to the SSH handshake
configuration for that hop instead. -/
theorem hop0_dial_uses_global_timeout (net : Net) (env : Env) (cfg : Config)
    (hop : Hop) (rest : List Hop) (ms : List AuthMethod) (cb : HostKeyCallback)
    (hhops : cfg.hops = hop :: rest)
    (hauth : authMethods env { cfg := cfg } = .ok ms)
    (hres : resolveHostKeyCallback env cfg hop = .ok cb) :
    (ensureChain net env { cfg := cfg }).2.1.head? =
      some (.dialUnderlayDirect 0 hop.hostPort cfg.perHopTimeout) ∧
    (net.dialDirect hop.hostPort cfg.perHopTimeout = true →
      (ensureChain net env { cfg := cfg }).2.1.take 2 =
        [.dialUnderlayDirect 0 hop.hostPort cfg.perHopTimeout,
         .handshakeEv 0 hop.hostPort (effTimeout cfg hop)]) := by
  have hev : (ensureChain net env { cfg := cfg }).2.1 =
      (chainLoop net env cfg cfg.hops 0 none [] []).2.1 := by
    simp [ensureChain, hauth]
  rw [hev, hhops, chainLoop.eq_def net env cfg (hop :: rest) 0 none [] []]
  simp only [hres]
  by_cases hd : net.dialDirect hop.hostPort cfg.perHopTimeout
  · by_cases hh : net.handshake 0 hop.hostPort
    · simp only [hd, hh, if_true]
      rw [chainLoop_events_accum]
      by_cases hka : 0 < cfg.keepAlive <;> simp [hka, List.take]
    · simp [hd, hh]
  · simp [hd]

/-- Witness for the amended C8 at the concrete fixture: with `hopT` carrying
a 5s timeout and the global timeout at 10s, the build trace starts with a
direct dial at 10s followed by a handshake configured at 5s. -/
theorem hop0_dial_uses_global_timeout_witness :
    (ensureChain netAll env0 { cfg := cfgT }).2.1.head? =
      some (.dialUnderlayDirect 0 hopT.hostPort cfgT.perHopTimeout) ∧
    (netAll.dialDirect hopT.hostPort cfgT.perHopTimeout = true →
      (ensureChain netAll env0 { cfg := cfgT }).2.1.take 2 =
        [.dialUnderlayDirect 0 hopT.hostPort cfgT.perHopTimeout,
         .handshakeEv 0 hopT.hostPort (effTimeout cfgT hopT)]) :=
  hop0_dial_uses_global_timeout netAll env0 cfgT hopT [] [.publicKeys [1]]
    (.custom 0) rfl rfl rfl

/-- Helper: the batch parser equals the spec-side formulation — filter out
empty specs, then parse the rest independently in order, first failure
aborting. -/
theorem ParseHops_eq_specParseHops (env : Env) (hops : List String) :
    ParseHops env hops = specParseHops env hops := by
  induction hops with
  | nil => rfl
  | cons s rest ihh =>
    by_cases hs : s = ""
    · simp only [ParseHops, hs, if_pos]
      rw [ihh]
      simp [specParseHops, List.filter_cons]
    · have hps : (decide (s ≠ "")) = true := by simp [hs]
      simp only [ParseHops, hs, if_neg, if_false, specParseHops,
        List.filter_cons, hps, if_true]
      cases hp : ParseHop env s with
      | error e => simp [parseEach, hp]
      | ok h =>
        simp only [ihh, specParseHops, parseEach, hp]
        cases parseEach env (List.filter (fun x => decide (x ≠ "")) rest) <;>
          simp

/-- C9: hop-spec parsing rules — with no `@`, the user comes from the current
process user, and parsing fails with a descriptive (spec-carrying) error when
that lookup fails or yields an empty username; a host-port part without a
colon gets `:22` appended; and `ParseHops` equals the spec-side batch parse
(independent, in order, empty specs skipped, first failure wins). -/
theorem parse_hop_rules (env : Env) (s : String) (u : String)
    (hops : List String) :
    (s.data.contains '@' = false → env.currentUser = some u → u ≠ "" →
      ParseHop env s =
        .ok { user := u,
              hostPort := if s.data.contains ':' then s else s ++ ":22" }) ∧
    (s.data.contains '@' = false →
      (env.currentUser = none ∨ env.currentUser = some "") →
      ParseHop env s = .error (.missingUser s)) ∧
    (∀ hp : Hop, ParseHop env s = .ok hp →
      (splitUserHost s).2.data.contains ':' = false →
      hp.hostPort = (splitUserHost s).2 ++ ":22") ∧
    ParseHops env hops = specParseHops env hops := by
  refine ⟨?_, ?_, ?_, ParseHops_eq_specParseHops env hops⟩
  · intro hat hcu hu
    have hat2 : '@' ∉ s.data := by simpa using hat
    simp [ParseHop, splitUserHost, hat2, hcu, hu]
  · intro hat hcu
    have hat2 : '@' ∉ s.data := by simpa using hat
    rcases hcu with hcu | hcu <;> simp [ParseHop, splitUserHost, hat2, hcu]
  · intro hp hok hcol
    unfold ParseHop at hok
    simp only [hcol, Bool.false_eq_true, if_false] at hok
    split at hok
    · cases hcu : env.currentUser with
      | none => rw [hcu] at hok; simp at hok
      | some v =>
        rw [hcu] at hok
        by_cases hv : v = ""
        · simp [hv] at hok
        · simp only [hv, if_false, Except.ok.injEq] at hok
          subst hok
          rfl
    · simp only [Except.ok.injEq] at hok
      subst hok
      rfl

/-- Witness for C9 at concrete inputs: `"host"` (no user, no port) parses to
the current user with port 22, and a batch with empty entries parses as the
spec-side batch parse. -/
theorem parse_hop_rules_witness :
    ParseHop env0 "host" = .ok { user := "alice", hostPort := "host:22" } ∧
    ParseHops env0 ["", "bob@h:2222", "x"] =
      specParseHops env0 ["", "bob@h:2222", "x"] := by
  constructor
  · have h := (parse_hop_rules env0 "host" "alice" []).1 (by decide) rfl
      (by decide)
    simpa using h
  · exact (parse_hop_rules env0 "x" "alice" ["", "bob@h:2222", "x"]).2.2.2

/-- The host part of a `host:port` string (everything before the first
colon). -/
def hostOf (hostPort : String) : String :=
  ⟨takeUntil ':' hostPort.data⟩

/-- C10: `ParseHop` on the empty string succeeds whenever the current user
resolves to a non-empty name: the result has host-port `":22"` — an empty
host — and the current user's name; `WithHop ""` therefore appends exactly
that hop instead of rejecting the spec. -/
theorem parseHop_empty_string (env : Env) (u : String) (cfg : Config)
    (hu : env.currentUser = some u) (hne : u ≠ "") :
    ParseHop env "" = .ok { user := u, hostPort := ":22" } ∧
    hostOf ":22" = "" ∧
    WithHop env "" cfg =
      .ok { cfg with hops := cfg.hops ++ [{ user := u, hostPort := ":22" }] } := by
  have hc : ("".data.contains '@') = false := by decide
  have hcc : ("".data.contains ':') = false := by decide
  have h1 : ParseHop env "" = .ok { user := u, hostPort := ":22" } := by
    simp [ParseHop, splitUserHost, hc, hcc, hu, hne]
  refine ⟨h1, by decide, ?_⟩
  simp [WithHop, h1]

/-- Witness for C10 at a concrete environment: user `alice`, default config. -/
theorem parseHop_empty_string_witness :
    ParseHop env0 "" = .ok { user := "alice", hostPort := ":22" } ∧
    hostOf ":22" = "" ∧
    WithHop env0 "" defaultConfig =
      .ok { defaultConfig with
              hops := [{ user := "alice", hostPort := ":22" }] } := by
  have h := parseHop_empty_string env0 "alice" defaultConfig rfl (by decide)
  simpa using h
